import Mathlib

/-!
Verification of the detection / injection core of the autoinject repository.

The Go sources are shallowly embedded: pure string and list manipulation is
translated function-by-function; the operating-system surface (procfs reads,
signals, process spawn) is an explicit "world" record supplying the outcome of
each read or control action, so the orchestration logic stays executable.
Go panics are modelled as `Option.none` / a dedicated `panicked` outcome.
-/

set_option maxRecDepth 10000

namespace AutoInject

/-! ## Go string primitives (ASCII text, byte = char here) -/

/-- Go strings.HasPrefix on the underlying characters. -/
def strHasPre (s p : String) : Bool :=
  p.toList.isPrefixOf s.toList

/-- Helper for Go strings.Contains: does `needle` occur contiguously? -/
def subOccurs (needle : List Char) : List Char → Bool
  | [] => needle.isEmpty
  | c :: t => needle.isPrefixOf (c :: t) || subOccurs needle (t)

/-- Go strings.Contains. -/
def strContains (s sub : String) : Bool :=
  subOccurs sub.toList s.toList

/-- Go strings.TrimPrefix. -/
def strTrimPre (s p : String) : String :=
  if strHasPre s p then ⟨s.toList.drop p.toList.length⟩ else s

/-- Go strings.SplitN(s, "=", 2): text before the first '=', and the rest
    after it when an '=' exists. -/
def splitAtFirstEq : List Char → List Char × Option (List Char)
  | [] => ([], none)
  | c :: t =>
    if c = '=' then ([], some t)
    else
      let r := splitAtFirstEq t
      (c :: r.1, r.2)

/-! ## Go path primitives (unix rules, as used by filepath.Base / filepath.Clean) -/

/-- Split a character list on '/'; mirrors the element decomposition used by
    Go path.Clean ("".splitOn "/" = [""]). -/
def splitOnSlash : List Char → List (List Char)
  | [] => [[]]
  | c :: t =>
    let r := splitOnSlash t
    if c = '/' then [] :: r
    else
      match r with
      | [] => [[c]]
      | h :: rt => (c :: h) :: rt

/-- One step of Go path.Clean's element processing: drop empty and "."
    elements, let ".." pop the previous real element (never popping past the
    root of a rooted path, and accumulating at the front of a relative path).
    The stack is kept reversed. -/
def cleanStep (rooted : Bool) (stack : List (List Char)) (e : List Char) : List (List Char) :=
  if e = [] ∨ e = ['.'] then stack
  else if e = ['.', '.'] then
    match stack with
    | [] => if rooted then [] else [['.', '.']]
    | a :: rest => if a = ['.', '.'] then ['.', '.'] :: a :: rest else rest
  else e :: stack

/-- Join path elements with '/'. -/
def joinSlash : List (List Char) → List Char
  | [] => []
  | [e] => e
  | e :: t => e ++ '/' :: joinSlash t

/-- Go filepath.Clean for unix paths (the lexical simplification documented on
    path.Clean: collapse repeated separators, drop "." elements, resolve ".."
    against the preceding element, never above the root of a rooted path;
    empty cleans to "."). -/
def pathClean (p : String) : String :=
  match p.toList with
  | [] => "."
  | c :: cs =>
    let rooted := c == '/'
    let stack := (splitOnSlash (c :: cs)).foldl (cleanStep rooted) []
    let body := joinSlash stack.reverse
    if rooted then (if body = [] then "/" else ⟨'/' :: body⟩)
    else (if body = [] then "." else ⟨body⟩)

/-- Go filepath.Base for unix paths: strip trailing slashes, then keep the
    text after the last remaining slash ("" gives ".", all-slashes gives "/"). -/
def pathBase (p : String) : String :=
  if p = "" then "."
  else
    let noTrail := ((p.toList.reverse.dropWhile fun c => c = '/').reverse)
    if noTrail = [] then "/"
    else ⟨(noTrail.reverse.takeWhile fun c => c ≠ '/').reverse⟩

/-! ## Detector data model (java_detector.go) -/

/-- detector.Agent: one parsed -javaagent parameter. -/
structure Agent where
  path : String
  options : String
  fullParam : String
deriving DecidableEq, Repr

/-- detector.JavaProcess, restricted to the fields the claims touch. -/
structure JavaProcess where
  pid : Int
  name : String
  user : String
  uid : Int
  cmdLine : List String
  agents : List Agent
  mainClass : String
  jarFile : String
deriving DecidableEq, Repr

/-- detector.parseAgentParam: strip "-javaagent:" or "-javaagent=", then split
    the remainder at the first '=' into path and options. -/
def parseAgentParam (arg : String) : Option Agent :=
  let param? : Option String :=
    if strHasPre arg "-javaagent:" then some (strTrimPre arg "-javaagent:")
    else if strHasPre arg "-javaagent=" then some (strTrimPre arg "-javaagent=")
    else none
  match param? with
  | none => none
  | some param =>
    let pr := splitAtFirstEq param.toList
    some { path := ⟨pr.1⟩,
           options := match pr.2 with | some o => ⟨o⟩ | none => "",
           fullParam := arg }

/-- Does a token carry one of the two recognized agent-flag forms? -/
def hasAgentFlagForm (arg : String) : Bool :=
  strHasPre arg "-javaagent:" || strHasPre arg "-javaagent="

/-- detector.extractAgents: scan the argument vector; a matching token is kept
    only when its parsed path contains "SecPoint.jar" (the source comment says
    the detector only records SecPoint.jar agents). -/
def extractAgents (cmdline : List String) : List Agent :=
  cmdline.filterMap fun arg =>
    if hasAgentFlagForm arg then
      match parseAgentParam arg with
      | some agent =>
        if strContains agent.path "SecPoint.jar" then some agent else none
      | none => none
    else none

/-- detector.HasAgent: false outright unless the target path contains
    "SecPoint.jar"; otherwise compare cleaned paths against each recorded
    agent. -/
def hasAgent (proc : JavaProcess) (agentPath : String) : Bool :=
  if strContains agentPath "SecPoint.jar" then
    proc.agents.any fun agent => pathClean agent.path == pathClean agentPath
  else false

/-- detector.HasSecPointAgent: any recorded agent at all. -/
def hasSecPointAgent (proc : JavaProcess) : Bool :=
  !proc.agents.isEmpty

/-! Spec-side companions for the refinement claims C1 and C3. -/

/-- Spec-side (C3): the descriptor the spec promises for a matching token —
    strip whichever recognized flag text is present, split the remainder at
    the first '=' into path and options, and keep the verbatim token. -/
def specAgentOf (arg : String) : Agent :=
  let rest :=
    if strHasPre arg "-javaagent:" then strTrimPre arg "-javaagent:"
    else strTrimPre arg "-javaagent="
  let pr := splitAtFirstEq rest.toList
  { path := ⟨pr.1⟩,
    options := match pr.2 with | some o => ⟨o⟩ | none => "",
    fullParam := arg }

/-- The tokens the code actually keeps (amended C3): agent-flag form, and the
    parsed path mentions SecPoint.jar. -/
def keptAgentToken (arg : String) : Bool :=
  hasAgentFlagForm arg && strContains (specAgentOf arg).path "SecPoint.jar"

/-- Counterexample material for C1: a classified process whose recorded agent
    path "/x/SecPoint.jar/../agent.jar" cleans to "/x/agent.jar". -/
def cexProcC1 : JavaProcess :=
  { pid := 1, name := "java", user := "root", uid := 0,
    cmdLine := ["java", "-javaagent:/x/SecPoint.jar/../agent.jar"],
    agents := extractAgents ["java", "-javaagent:/x/SecPoint.jar/../agent.jar"],
    mainClass := "", jarFile := "" }

/-! ## Process filter (java_detector.go, matchFilter) -/

/-- detector.ProcessFilter. `regexPats` are uncompiled regex pattern strings
    (Patterns in the source); `agentState` is the tri-state HasAgent field.
    The source declares Names and MinUptime but matchFilter never reads them. -/
structure ProcessFilter where
  pids : List Int
  names : List String
  users : List String
  regexPats : List String
  agentState : Option Bool
  minUptime : Option Int
deriving DecidableEq, Repr

/-- One pattern's contribution in matchFilter: `re` is the regex engine,
    giving `none` on compilation failure (which the code logs and skips) and
    otherwise a match predicate, tried against name, jar file and main class. -/
def regexHit (re : String → Option (String → Bool)) (proc : JavaProcess)
    (pattern : String) : Bool :=
  match re pattern with
  | none => false
  | some m => m proc.name || m proc.jarFile || m proc.mainClass

/-- The HasAgent check inside matchFilter: when the tri-state is set, reject
    on disagreement with "has any agent". -/
def agentStateMismatch (f : ProcessFilter) (proc : JavaProcess) : Bool :=
  match f.agentState with
  | some b => b != (!proc.agents.isEmpty)
  | none => false

/-- detector.matchFilter: the sequence of early-false checks from the source —
    PID membership, user membership, agent-state equality, then at least one
    regex hit. The Names and MinUptime fields are never consulted. -/
def matchFilter (re : String → Option (String → Bool)) (proc : JavaProcess)
    (f : ProcessFilter) : Bool :=
  if f.pids ≠ [] ∧ ¬ f.pids.contains proc.pid then false
  else if f.users ≠ [] ∧ ¬ f.users.contains proc.user then false
  else if agentStateMismatch f proc then false
  else if f.regexPats ≠ [] ∧ ¬ f.regexPats.any (regexHit re proc) then false
  else true

/-- detector.CheckPermissions: fails unless the caller owns the process or is
    root (uid 0). -/
def checkPermissions (currentUid : Int) (proc : JavaProcess) : Bool :=
  if proc.uid ≠ currentUid ∧ currentUid ≠ 0 then false else true

/-! ## Command-line rewriter (static_injector.go) -/

/-- The launcher-token test from buildNewCmdLine: the argument's base name
    contains "java". -/
def isLauncherToken (arg : String) : Bool :=
  strContains (pathBase arg) "java"

/-- The source's scan for the first launcher token (index of the first match). -/
def launcherScan : List String → Option Nat
  | [] => none
  | arg :: rest =>
    if isLauncherToken arg then some 0
    else (launcherScan rest).map (· + 1)

/-- javaIdx after the defaulting step: first launcher index, or 0 when none. -/
def launcherIdx (old : List String) : Nat :=
  (launcherScan old).getD 0

/-- injector.buildAgentParam. -/
def buildAgentParam (agent : Agent) : String :=
  if agent.options ≠ "" then "-javaagent:" ++ agent.path ++ "=" ++ agent.options
  else "-javaagent:" ++ agent.path

/-- injector.buildNewCmdLine: copy tokens up to and including the launcher
    token, insert one formatted flag per agent, copy the rest. The Go slice
    expression oldCmdLine[:javaIdx+1] is out of range when the vector is empty
    and no launcher exists (javaIdx defaults to 0 on a nil slice of capacity
    0), so that case panics; `none` models the panic. -/
def buildNewCmdLine (old : List String) (agents : List Agent) : Option (List String) :=
  let javaIdx := launcherIdx old
  if javaIdx + 1 ≤ old.length then
    some (old.take (javaIdx + 1) ++ agents.map buildAgentParam ++ old.drop (javaIdx + 1))
  else none

/-! ## Restart orchestrator (manager.go) -/

inductive RestartErr
  | infoFail
  | startFail
  | verifyFail
deriving DecidableEq, Repr

/-- process.RestartOptions (durations in opaque units; only positivity of
    VerifyWait and the retry count matter to the logic). Go's int MaxRetries
    is modelled as Nat: a non-positive retry budget runs the loop zero times. -/
structure RestartOpts where
  gracePeriod : Nat
  killTimeout : Nat
  verifyWait : Nat
  maxRetries : Nat
deriving DecidableEq, Repr

/-- The OS surface consumed by Restart: whether the pre-stop info capture
    (manager.getProcessInfo) succeeds, the outcome of the stop phase (which
    Restart only logs and ignores), the pid produced by each spawn attempt
    (`none` = that attempt's Start failed), and the liveness probe used during
    verification. -/
structure RestartWorld where
  procInfoOk : Bool
  stopOk : Bool
  start : Nat → Option Int
  alive : Int → Bool

/-- The Go retry loop `for i := 0; i < maxRetries; i++`: returns the final
    (newPid, err == nil) pair. Exhausting the attempts leaves newPid = 0 and a
    non-nil error. -/
def startLoop (start : Nat → Option Int) : Nat → Nat → Int × Bool
  | _, 0 => (0, false)
  | i, r + 1 =>
    match start i with
    | some pid => (pid, true)
    | none => startLoop start (i + 1) r

/-- The (newPid, err == nil) state after Restart's start phase. When
    MaxRetries is 0 the loop body never runs, so `err` keeps the nil value
    left by the info capture and newPid keeps its zero value. -/
def startPhase (w : RestartWorld) (opts : RestartOpts) : Int × Bool :=
  if opts.maxRetries = 0 then ((0 : Int), true)
  else startLoop w.start 0 opts.maxRetries

/-- process.Manager.Restart: info capture (fatal on failure), stop (outcome
    ignored), the start retry loop, then the liveness verification only when
    VerifyWait > 0. With MaxRetries = 0 the start phase reports a nil error
    and pid 0, and the source then reports success with pid 0. -/
def restartRun (w : RestartWorld) (opts : RestartOpts) : Except RestartErr Int :=
  if ¬ w.procInfoOk then Except.error RestartErr.infoFail
  else if ¬ (startPhase w opts).2 then Except.error RestartErr.startFail
  else if 0 < opts.verifyWait ∧ ¬ w.alive (startPhase w opts).1 then
    Except.error RestartErr.verifyFail
  else Except.ok (startPhase w opts).1

/-! ## Static injector (static_injector.go) -/

/-- injector.InjectResult. `errMsg` models the Error field (`none` = nil). -/
structure InjectResult where
  pid : Int
  success : Bool
  oldCmdLine : List String
  newCmdLine : List String
  newPID : Int
  oldAgents : List Agent
  newAgents : List Agent
  errMsg : Option String
  message : String
deriving DecidableEq, Repr

/-- The environment a single injection consumes: the restart world, the
    caller's uid (syscall.Getuid), and the post-restart agent re-read for the
    new pid (DiscoverJavaProcesses filtered to that pid; empty when discovery
    fails or finds nothing, leaving NewAgents at its zero value). -/
structure InjectWorld where
  restartW : RestartWorld
  currentUid : Int
  discover : Int → List Agent

/-- The InjectResult fields populated before any check runs. -/
def baseResult (proc : JavaProcess) : InjectResult :=
  { pid := proc.pid, success := false, oldCmdLine := proc.cmdLine,
    newCmdLine := [], newPID := 0, oldAgents := proc.agents, newAgents := [],
    errMsg := none, message := "" }

def restartErrText : RestartErr → String
  | RestartErr.infoFail => "failed to get process info"
  | RestartErr.startFail => "failed to start process after retries"
  | RestartErr.verifyFail => "new process exited during verification"

/-- injector.Inject (the agent-list form): permission check, command-line
    rewrite, restart, then result population. `none` propagates the panic of
    buildNewCmdLine on an empty argument vector. -/
def injectAgents (w : InjectWorld) (proc : JavaProcess) (agents : List Agent)
    (opts : RestartOpts) : Option InjectResult :=
  if ¬ checkPermissions w.currentUid proc then
    some { baseResult proc with errMsg := some "insufficient permissions",
                                message := "Permission denied" }
  else
    match buildNewCmdLine proc.cmdLine agents with
    | none => none
    | some newCmd =>
      match restartRun w.restartW opts with
      | Except.error e =>
        some { baseResult proc with
                 newCmdLine := newCmd,
                 errMsg := some (restartErrText e),
                 message := "Failed to restart process" }
      | Except.ok newPid =>
        some { baseResult proc with
                 newCmdLine := newCmd, newPID := newPid, success := true,
                 message := "Successfully injected agent and restarted process",
                 newAgents := w.discover newPid }

/-- injector.Inject (the SecPoint form appended to manager.go): identical but
    for the HasSecPointAgent early return placed before everything else. -/
def injectSecPoint (w : InjectWorld) (proc : JavaProcess) (secPointPath : String)
    (opts : RestartOpts) : Option InjectResult :=
  if hasSecPointAgent proc then
    some { baseResult proc with message := "SecPoint agent already attached" }
  else if ¬ checkPermissions w.currentUid proc then
    some { baseResult proc with errMsg := some "insufficient permissions",
                                message := "Permission denied" }
  else
    match buildNewCmdLine proc.cmdLine [{ path := secPointPath, options := "",
                                          fullParam := "" }] with
    | none => none
    | some newCmd =>
      match restartRun w.restartW opts with
      | Except.error e =>
        some { baseResult proc with
                 newCmdLine := newCmd,
                 errMsg := some (restartErrText e),
                 message := "Failed to restart process" }
      | Except.ok newPid =>
        some { baseResult proc with
                 newCmdLine := newCmd, newPID := newPid, success := true,
                 message := "Successfully injected SecPoint agent and restarted process",
                 newAgents := w.discover newPid }

/-! ## Batch coordinator (static_injector.go, BatchInject) -/

/-- The loop body of BatchInject. `cancelled k` is whether ctx.Done() is ready
    at the k-th target boundary. The Go body is
    `select { case <-ctx.Done(): log warning; break; default: }` followed
    unconditionally by the injection and the append: `break` inside a select
    case leaves only the select statement, never the for loop, so the observed
    cancellation changes nothing and every target is injected and appended.
    `injectOne` is the per-target call (Go's s.Inject, which returns a result
    on every error path); its error component is only logged. -/
def batchInjectLoop (cancelled : Nat → Bool)
    (injectOne : JavaProcess → InjectResult × Option String) :
    Nat → List JavaProcess → List InjectResult
  | _, [] => []
  | k, proc :: rest =>
    let _cancelObserved := cancelled k
    (injectOne proc).1 :: batchInjectLoop cancelled injectOne (k + 1) rest

/-- injector.BatchInject. -/
def batchInject (cancelled : Nat → Bool)
    (injectOne : JavaProcess → InjectResult × Option String)
    (targets : List JavaProcess) : List InjectResult :=
  batchInjectLoop cancelled injectOne 0 targets

/-! ## Process inspector (procfs.go) -/

/-- procfs.ProcessStatus, as parsed from /proc/pid/status. -/
structure ProcessStatus where
  name : String
  state : String
  pid : Int
  ppid : Int
  uid : Int
  gid : Int
deriving DecidableEq, Repr

/-- procfs.MemoryStats (byte values, already scaled by the page constant). -/
structure MemoryStats where
  rss : Nat
  vms : Nat
  shared : Nat
  text : Nat
  data : Nat
deriving DecidableEq, Repr

/-- The outcome of every independently fallible read GetProcessInfo performs:
    `none` is that read's error. ReadThreads and ReadOpenFDs already map their
    own failures to 0 inside the source, so they appear as plain values. -/
structure ProcReads where
  cmdline : Option (List String)
  status : Option ProcessStatus
  cwd : Option String
  exe : Option String
  startTimeMs : Option Int
  environ : Option (List (String × String))
  userName : Int → Option String
  memStats : Option MemoryStats
  threads : Nat
  openFds : Nat

/-- procfs.Process, the snapshot GetProcessInfo assembles (CPUPercent is the
    constant 0 in the source and is omitted). -/
structure ProcSnapshot where
  pid : Int
  name : String
  cmdLine : List String
  envs : List (String × String)
  user : String
  uid : Int
  startTimeMs : Int
  cwd : String
  execPath : String
  memoryRss : Nat
  memoryVms : Nat
  threads : Nat
  openFds : Nat
deriving DecidableEq, Repr

inductive ProcInfoOutcome
  | ok (p : ProcSnapshot)
  | err
  | panicked
deriving DecidableEq, Repr

/-- procfs.GetProcessInfo: cmdline and status failures abort with an error;
    cwd, exe, start time and environment degrade to empty/zero values; the
    user name falls back to the numeric uid rendered as text. The memory read
    is `memStats, _ := ReadMemoryStats(pid)`: on failure memStats is the nil
    pointer and the subsequent memStats.RSS field access panics. -/
def getProcessInfo (pid : Int) (r : ProcReads) : ProcInfoOutcome :=
  match r.cmdline with
  | none => ProcInfoOutcome.err
  | some cmdline =>
    match r.status with
    | none => ProcInfoOutcome.err
    | some status =>
      let cwd := r.cwd.getD ""
      let exe := r.exe.getD ""
      let startTime := r.startTimeMs.getD 0
      let envs := r.environ.getD []
      let userName := (r.userName status.uid).getD (toString status.uid)
      match r.memStats with
      | none => ProcInfoOutcome.panicked
      | some ms =>
        ProcInfoOutcome.ok
          { pid := pid, name := status.name, cmdLine := cmdline, envs := envs,
            user := userName, uid := status.uid, startTimeMs := startTime,
            cwd := cwd, execPath := exe, memoryRss := ms.rss,
            memoryVms := ms.vms, threads := r.threads, openFds := r.openFds }

/-! ## Start-time arithmetic (procfs.go, GetStartTime) -/

/-- procfs.GetStartTime, in milliseconds since the epoch: boot time is
    now - uptime; the start offset is startTimeTicks*1000/clockTicks
    milliseconds where the source sets clockTicks := syscall.Getpagesize().
    Division is Go int64 division (truncation toward zero, Int.tdiv). The
    stat record must have at least 22 fields; field 22 (index 21) is the
    tick count. -/
def getStartTimeMs (nowMs uptimeSec : Int) (statFields : List Int)
    (pageSize : Int) : Option Int :=
  if statFields.length < 22 then none
  else
    (statFields.get? 21).map fun startTimeTicks =>
      (nowMs - uptimeSec * 1000) + Int.tdiv (startTimeTicks * 1000) pageSize

/-- Spec-side (C8) start-time formula: identical shape but scaled with the
    host's clock-tick frequency (ticks per second), as the spec requires. -/
def specStartTimeMs (nowMs uptimeSec : Int) (statFields : List Int)
    (clockTicksPerSec : Int) : Option Int :=
  if statFields.length < 22 then none
  else
    (statFields.get? 21).map fun startTimeTicks =>
      (nowMs - uptimeSec * 1000) + Int.tdiv (startTimeTicks * 1000) clockTicksPerSec

/-! ## Concrete instances used by the counterexamples and witnesses -/

/-- A minimal java process without agents. -/
def plainJavaProc (pid : Int) : JavaProcess :=
  { pid := pid, name := "java", user := "app", uid := 1000,
    cmdLine := ["java"], agents := [], mainClass := "", jarFile := "" }

/-- The agent descriptor of spec Scenario A. -/
def cexAgentC5 : Agent :=
  { path := "/opt/agent.jar", options := "", fullParam := "" }

/-- The SecPoint agent descriptor injected in the C6 scenarios. -/
def witAgentC6 : Agent :=
  { path := "/opt/SecPoint.jar", options := "", fullParam := "" }

/-- C6 witness world: the info capture succeeds, every spawn attempt yields
    pid 42, the liveness probe passes. -/
def witWC6 : InjectWorld :=
  { restartW := { procInfoOk := true, stopOk := true,
                  start := fun _ => some 42, alive := fun _ => true },
    currentUid := 0, discover := fun _ => [] }

/-- C6 witness restart policy: the shipped defaults (grace 10s, kill 30s,
    verify 5s, 3 retries), durations in seconds. -/
def witOptsC6 : RestartOpts :=
  { gracePeriod := 10, killTimeout := 30, verifyWait := 5, maxRetries := 3 }

/-- The result the C6 witness injection produces. -/
def witResC6 : InjectResult :=
  { pid := 9, success := true, oldCmdLine := ["java"],
    newCmdLine := ["java", "-javaagent:/opt/SecPoint.jar"], newPID := 42,
    oldAgents := [], newAgents := [], errMsg := none,
    message := "Successfully injected agent and restarted process" }

/-- C6 counterexample world: spawn never succeeds — irrelevant, because the
    retry loop is never entered. -/
def cexWC6 : InjectWorld :=
  { restartW := { procInfoOk := true, stopOk := true,
                  start := fun _ => none, alive := fun _ => true },
    currentUid := 0, discover := fun _ => [] }

/-- C6 counterexample policy: a configuration with max_retries set to 0. -/
def cexOptsC6 : RestartOpts :=
  { gracePeriod := 10, killTimeout := 30, verifyWait := 5, maxRetries := 0 }

/-- C9 counterexample filter: only the name list is populated. -/
def cexFilterC9 : ProcessFilter :=
  { pids := [], names := ["frontend"], users := [], regexPats := [],
    agentState := none, minUptime := none }

/-- C9 counterexample process: its name is not in the filter's name list. -/
def cexProcC9 : JavaProcess :=
  { pid := 7, name := "backend", user := "bob", uid := 1000,
    cmdLine := ["java"], agents := [], mainClass := "", jarFile := "" }

/-- C10 witness process: one SecPoint agent already recorded. -/
def cexProcC10 : JavaProcess :=
  { pid := 31, name := "java", user := "app", uid := 1000,
    cmdLine := ["java", "-javaagent:/opt/secpoint/SecPoint.jar", "-jar", "app.jar"],
    agents := [{ path := "/opt/secpoint/SecPoint.jar", options := "",
                 fullParam := "-javaagent:/opt/secpoint/SecPoint.jar" }],
    mainClass := "", jarFile := "app.jar" }

/-- Two deliberately different worlds and policies for the C10 witness. -/
def cexWC10a : InjectWorld :=
  { restartW := { procInfoOk := true, stopOk := true,
                  start := fun _ => some 7, alive := fun _ => true },
    currentUid := 0, discover := fun _ => [] }

def cexWC10b : InjectWorld :=
  { restartW := { procInfoOk := false, stopOk := false,
                  start := fun _ => none, alive := fun _ => false },
    currentUid := 5, discover := fun _ => [] }

def cexOptsC10a : RestartOpts :=
  { gracePeriod := 10, killTimeout := 30, verifyWait := 5, maxRetries := 3 }

def cexOptsC10b : RestartOpts :=
  { gracePeriod := 0, killTimeout := 0, verifyWait := 0, maxRetries := 0 }

/-- C2: reads where the primary fields succeed, every secondary read fails,
    but the memory-stat read succeeds. -/
def cexReadsOk : ProcReads :=
  { cmdline := some ["java", "-jar", "app.jar"],
    status := some { name := "java", state := "S", pid := 4242, ppid := 1,
                     uid := 1000, gid := 1000 },
    cwd := none, exe := none, startTimeMs := none, environ := none,
    userName := fun _ => none,
    memStats := some { rss := 0, vms := 0, shared := 0, text := 0, data := 0 },
    threads := 0, openFds := 0 }

/-- C2 failing input: same process, but now /proc/pid/statm is unreadable
    (for example the process exited between reads). -/
def cexReadsMem : ProcReads :=
  { cexReadsOk with memStats := none }

/-! # Theorems -/

/-! ## C1 — HasAgent and normalized-path equality -/

/-- C1 (counterexample): the claim says HasAgent is true exactly when some
    detected agent matches on cleaned path, and in particular that an agent
    recorded under a `..`-laden path is reported present for the cleaned
    target. On the classified process cexProcC1 the agent recorded as
    "/x/SecPoint.jar/../agent.jar" has cleaned path "/x/agent.jar", equal to
    the cleaned target, yet HasAgent answers false, because the target path
    does not contain "SecPoint.jar". -/
theorem hasAgent_cex :
    hasAgent cexProcC1 "/x/agent.jar" = false ∧
      (cexProcC1.agents.any fun agent =>
        pathClean agent.path == pathClean "/x/agent.jar") = true := by
  decide

/-- C1 (amended): HasAgent answers true exactly when the target path contains
    "SecPoint.jar" AND some detected agent of the process has the same
    cleaned path as the target, ignoring options. -/
theorem hasAgent_iff (proc : JavaProcess) (agentPath : String) :
    hasAgent proc agentPath = true ↔
      (strContains agentPath "SecPoint.jar" = true ∧
        ∃ agent ∈ proc.agents, pathClean agent.path = pathClean agentPath) := by
  unfold hasAgent
  by_cases h : strContains agentPath "SecPoint.jar" = true
  · simp [h, List.any_eq_true, beq_iff_eq]
  · simp [h]

/-! ## C3 — agent extraction -/

/-- On a token carrying one of the two recognized agent-flag forms, the
    source's parser produces exactly the descriptor the spec describes. -/
theorem parseAgentParam_of_flag (arg : String) (h : hasAgentFlagForm arg = true) :
    parseAgentParam arg = some (specAgentOf arg) := by
  unfold hasAgentFlagForm at h
  unfold parseAgentParam specAgentOf
  by_cases h1 : strHasPre arg "-javaagent:" = true
  · simp [h1]
  · have h2 : strHasPre arg "-javaagent=" = true := by
      rcases Bool.or_eq_true_iff.mp h with hc | hc
      · exact absurd hc h1
      · exact hc
    simp [h1, h2]

/-- C3 (counterexample): the claim says every token beginning with a
    recognized agent-flag form is recorded, with no other filtering; the
    token "-javaagent:/opt/other.jar" carries the colon form, yet extraction
    records nothing, because its path does not mention SecPoint.jar. -/
theorem extractAgents_cex :
    extractAgents ["-javaagent:/opt/other.jar"] = [] ∧
      hasAgentFlagForm "-javaagent:/opt/other.jar" = true := by
  decide

/-- How extraction treats the head token: kept exactly when it carries a
    recognized flag form and its parsed path mentions SecPoint.jar. -/
theorem extractAgents_cons (arg : String) (rest : List String) :
    extractAgents (arg :: rest) =
      (if keptAgentToken arg then [specAgentOf arg] else []) ++ extractAgents rest := by
  by_cases hf : hasAgentFlagForm arg = true
  · by_cases hc : strContains (specAgentOf arg).path "SecPoint.jar" = true
    · simp [extractAgents, keptAgentToken, List.filterMap_cons, hf, hc,
        parseAgentParam_of_flag arg hf]
    · simp [extractAgents, keptAgentToken, List.filterMap_cons, hf, hc,
        parseAgentParam_of_flag arg hf]
  · simp [extractAgents, keptAgentToken, List.filterMap_cons, hf]

/-- C3 (amended): extraction records one descriptor for every token that
    carries a recognized agent-flag form AND whose parsed path contains
    "SecPoint.jar", in argument order with no deduplication; each descriptor
    is the spec's (path up to the first '=', options after it, verbatim
    token). -/
theorem extractAgents_eq_spec (cmdline : List String) :
    extractAgents cmdline = (cmdline.filter keptAgentToken).map specAgentOf := by
  induction cmdline with
  | nil => rfl
  | cons arg rest ih =>
    rw [extractAgents_cons, ih, List.filter_cons]
    by_cases hk : keptAgentToken arg = true
    · simp [hk]
    · simp [hk]

/-! ## C5 — command-line rewriting -/

/-- The launcher scan only answers indices inside the vector. -/
theorem launcherScan_lt (l : List String) (i : Nat)
    (h : launcherScan l = some i) : i < l.length := by
  induction l generalizing i with
  | nil => simp [launcherScan] at h
  | cons a t ih =>
    unfold launcherScan at h
    by_cases ha : isLauncherToken a = true
    · rw [if_pos ha] at h
      have : i = 0 := by injection h with h; omega
      simp [this]
    · rw [if_neg ha] at h
      cases ht : launcherScan t with
      | none => rw [ht] at h; simp at h
      | some j =>
        rw [ht] at h
        simp at h
        have := ih j ht
        simp only [List.length_cons]
        omega

/-- The defaulted insertion anchor is inside any non-empty vector. -/
theorem launcherIdx_lt (l : List String) (h : l ≠ []) :
    launcherIdx l < l.length := by
  unfold launcherIdx
  cases hs : launcherScan l with
  | none =>
    cases l with
    | nil => exact absurd rfl h
    | cons a t => simp
  | some i => simpa using launcherScan_lt l i hs

/-- C5 (counterexample): the claim quantifies over every original argument
    vector, but on the empty vector no launcher token exists, javaIdx
    defaults to 0, and the slice oldCmdLine[:1] of a nil slice panics — the
    call returns no vector at all (modelled as `none`), instead of a vector
    of length 0 + 1. -/
theorem buildNewCmdLine_cex_empty :
    buildNewCmdLine [] [cexAgentC5] = none := by
  decide

/-- C5 (amended): for every NON-EMPTY original argument vector and agent
    list, buildNewCmdLine returns a vector — the tokens up to and including
    the launcher anchor, then one formatted flag per agent in the order
    supplied, then the rest — whose length is the input length plus the
    number of agents, and in which all original tokens appear in their
    original relative order. -/
theorem buildNewCmdLine_spec (old : List String) (agents : List Agent)
    (h : old ≠ []) :
    ∃ r, buildNewCmdLine old agents = some r ∧
      r = old.take (launcherIdx old + 1) ++ agents.map buildAgentParam ++
          old.drop (launcherIdx old + 1) ∧
      r.length = old.length + agents.length ∧
      old.Sublist r := by
  have hlt := launcherIdx_lt old h
  refine ⟨_, ?_, rfl, ?_, ?_⟩
  · unfold buildNewCmdLine
    rw [if_pos (by omega)]
  · simp only [List.length_append, List.length_take, List.length_drop,
      List.length_map]
    omega
  · conv_lhs => rw [← List.take_append_drop (launcherIdx old + 1) old]
    rw [List.append_assoc]
    exact (List.sublist_append_right _ _).append_left _

/-- C5 witness: spec Scenario A — original ["java", "-jar", "app.jar"] with
    agent /opt/agent.jar yields
    ["java", "-javaagent:/opt/agent.jar", "-jar", "app.jar"], instantiating
    the amended theorem at that input. -/
theorem buildNewCmdLine_spec_witness :
    buildNewCmdLine ["java", "-jar", "app.jar"] [cexAgentC5] =
      some ["java", "-javaagent:/opt/agent.jar", "-jar", "app.jar"] ∧
    (∃ r, buildNewCmdLine ["java", "-jar", "app.jar"] [cexAgentC5] = some r ∧
      r = ["java", "-jar", "app.jar"].take
            (launcherIdx ["java", "-jar", "app.jar"] + 1) ++
          [cexAgentC5].map buildAgentParam ++
          ["java", "-jar", "app.jar"].drop
            (launcherIdx ["java", "-jar", "app.jar"] + 1) ∧
      r.length = (["java", "-jar", "app.jar"] : List String).length +
        ([cexAgentC5] : List Agent).length ∧
      (["java", "-jar", "app.jar"] : List String).Sublist r) :=
  ⟨by decide, buildNewCmdLine_spec _ _ (by decide)⟩

/-! ## C2 — snapshot degradation on secondary-read failure -/

/-- C2 (code bug): with the primary reads (cmdline, status) succeeding, the
    failing secondary reads cwd, exe, start time and environment do degrade
    to empty/zero values as the claim says — but a failing memory-stat read
    does not: `memStats, _ := ReadMemoryStats(pid)` discards the error, and
    the following memStats.RSS field access dereferences the nil pointer and
    panics instead of producing a zero-valued snapshot. -/
theorem getProcessInfo_memstats_panics :
    getProcessInfo 4242 cexReadsMem = ProcInfoOutcome.panicked ∧
    getProcessInfo 4242 cexReadsOk = ProcInfoOutcome.ok
      { pid := 4242, name := "java", cmdLine := ["java", "-jar", "app.jar"],
        envs := [], user := "1000", uid := 1000, startTimeMs := 0, cwd := "",
        execPath := "", memoryRss := 0, memoryVms := 0, threads := 0,
        openFds := 0 } := by
  constructor <;> rfl

/-! ## C4 — batch cancellation -/

/-- C4 (code bug): with the context already cancelled before the batch
    starts, cancellation is observed at the very first target boundary, yet
    both targets are still injected and reported: `break` inside the
    `select` statement of BatchInject leaves only the select, never the
    target loop, so the claim's "remaining targets are never processed"
    fails on every cancelled batch. -/
theorem batchInject_cancelled_still_processes :
    batchInject (fun _ => true)
        (fun t => (baseResult t, some "context canceled"))
        [plainJavaProc 1, plainJavaProc 2] =
      [baseResult (plainJavaProc 1), baseResult (plainJavaProc 2)] := by
  rfl

/-! ## C7 — one result per target, no fail-fast -/

/-- The loop of BatchInject appends one result per target whatever the
    cancellation pattern and whatever each injection reports. -/
theorem batchInjectLoop_map (cancelled : Nat → Bool)
    (injectOne : JavaProcess → InjectResult × Option String) :
    ∀ (k : Nat) (targets : List JavaProcess),
      batchInjectLoop cancelled injectOne k targets =
        targets.map fun t => (injectOne t).1 := by
  intro k targets
  induction targets generalizing k with
  | nil => rfl
  | cons t rest ih => simp [batchInjectLoop, ih]

/-- C7: BatchInject returns exactly one InjectionResult per target, in input
    order — the k-th result is the injection outcome of the k-th target —
    for every per-target outcome function, so a permission or restart
    failure recorded in one target's result never prevents the remaining
    targets from being processed and reported. -/
theorem batchInject_one_result_per_target (cancelled : Nat → Bool)
    (injectOne : JavaProcess → InjectResult × Option String)
    (targets : List JavaProcess) :
    batchInject cancelled injectOne targets =
      targets.map (fun t => (injectOne t).1) ∧
    (batchInject cancelled injectOne targets).length = targets.length := by
  have h := batchInjectLoop_map cancelled injectOne 0 targets
  exact ⟨h, by rw [batchInject, h, List.length_map]⟩

/-! ## C8 — start-time scaling -/

/-- C8 (code bug): the source scales the tick count with
    syscall.Getpagesize() (4096 on the usual configuration) where the spec
    requires the clock-tick frequency (100 ticks/s on the usual
    configuration): for a process recorded at 100 ticks after boot the code
    places its start 24 ms after boot where the claim requires 1000 ms. -/
theorem getStartTime_wrong_divisor :
    getStartTimeMs 0 0 (List.replicate 21 0 ++ [100]) 4096 = some 24 ∧
    specStartTimeMs 0 0 (List.replicate 21 0 ++ [100]) 100 = some 1000 ∧
    getStartTimeMs 0 0 (List.replicate 21 0 ++ [100]) 4096 ≠
      specStartTimeMs 0 0 (List.replicate 21 0 ++ [100]) 100 := by
  decide

/-! ## C6 — success invariant of an injection result -/

/-- A start loop that ends with a nil error obtained its pid from some spawn
    attempt. -/
theorem startLoop_ok (start : Nat → Option Int) :
    ∀ (r i : Nat) (pid : Int), startLoop start i r = (pid, true) →
      ∃ j, start j = some pid := by
  intro r
  induction r with
  | zero =>
    intro i pid h
    simp [startLoop] at h
  | succ n ih =>
    intro i pid h
    unfold startLoop at h
    cases hs : start i with
    | some p =>
      rw [hs] at h
      have hp : p = pid := by
        have := congrArg Prod.fst h
        simpa using this
      exact ⟨i, by rw [hs, hp]⟩
    | none =>
      rw [hs] at h
      exact ih (i + 1) pid h

/-- With a positive retry budget, a nil-error start phase got its pid from a
    spawn attempt. -/
theorem startPhase_ok (w : RestartWorld) (opts : RestartOpts)
    (hretry : 1 ≤ opts.maxRetries) (pid : Int)
    (h : startPhase w opts = (pid, true)) : ∃ j, w.start j = some pid := by
  unfold startPhase at h
  rw [if_neg (by omega)] at h
  exact startLoop_ok w.start opts.maxRetries 0 pid h

/-- A successful Restart, under a positive retry budget and spawn pids being
    positive, returns a positive pid that passed the liveness probe whenever
    a verification wait was configured. -/
theorem restartRun_ok (w : RestartWorld) (opts : RestartOpts) (pid : Int)
    (hretry : 1 ≤ opts.maxRetries)
    (hpos : ∀ i p, w.start i = some p → 0 < p)
    (h : restartRun w opts = Except.ok pid) :
    0 < pid ∧ (0 < opts.verifyWait → w.alive pid = true) := by
  unfold restartRun at h
  by_cases hinfo : w.procInfoOk = true
  · rw [if_neg (by simp [hinfo])] at h
    by_cases hs2 : (startPhase w opts).2 = true
    · rw [if_neg (by simp [hs2])] at h
      by_cases hv : 0 < opts.verifyWait ∧ ¬ w.alive (startPhase w opts).1 = true
      · rw [if_pos hv] at h
        cases h
      · rw [if_neg hv] at h
        have hp : (startPhase w opts).1 = pid := by injection h
        have hsp : startPhase w opts = (pid, true) := by
          rw [← hp, ← hs2]
        obtain ⟨j, hj⟩ := startPhase_ok w opts hretry pid hsp
        refine ⟨hpos j pid hj, fun hvw => ?_⟩
        by_contra hal
        rw [hp] at hv
        exact hv ⟨hvw, fun hc => hal hc⟩
    · rw [if_pos (by simpa using hs2)] at h
      cases h
  · rw [if_pos (by simp [hinfo])] at h
    cases h

/-- C6 (amended): any InjectionResult actually returned, under a restart
    policy with a positive retry budget and the OS guarantee that spawned
    pids are positive, satisfies: success = true implies a positive new pid
    and — whenever a verification wait is configured — a liveness probe of
    that pid that passed; success = false implies the new-pid field is 0. -/
theorem injectAgents_success_invariant (w : InjectWorld) (proc : JavaProcess)
    (agents : List Agent) (opts : RestartOpts) (r : InjectResult)
    (hr : injectAgents w proc agents opts = some r)
    (hretry : 1 ≤ opts.maxRetries)
    (hpos : ∀ i p, w.restartW.start i = some p → 0 < p) :
    (r.success = true → 0 < r.newPID ∧
      (0 < opts.verifyWait → w.restartW.alive r.newPID = true)) ∧
    (r.success = false → r.newPID = 0) := by
  unfold injectAgents at hr
  by_cases hperm : checkPermissions w.currentUid proc = true
  · rw [if_neg (by simp [hperm])] at hr
    cases hb : buildNewCmdLine proc.cmdLine agents with
    | none =>
      rw [hb] at hr
      cases hr
    | some newCmd =>
      rw [hb] at hr
      cases hrr : restartRun w.restartW opts with
      | error e =>
        rw [hrr] at hr
        injection hr with hr
        subst hr
        exact ⟨fun hs => by simp [baseResult] at hs, fun _ => rfl⟩
      | ok newPid =>
        rw [hrr] at hr
        injection hr with hr
        subst hr
        have hro := restartRun_ok w.restartW opts newPid hretry hpos hrr
        exact ⟨fun _ => hro, fun hs => by simp [baseResult] at hs⟩
  · rw [if_pos (by simp [hperm])] at hr
    injection hr with hr
    subst hr
    exact ⟨fun hs => by simp [baseResult] at hs, fun _ => rfl⟩

/-- C6 witness: a successful concrete injection — spawn succeeds with pid
    42, the probe passes — instantiating the amended invariant. -/
theorem injectAgents_success_invariant_witness :
    injectAgents witWC6 (plainJavaProc 9) [witAgentC6] witOptsC6 =
      some witResC6 ∧
    ((witResC6.success = true → 0 < witResC6.newPID ∧
        (0 < witOptsC6.verifyWait →
          witWC6.restartW.alive witResC6.newPID = true)) ∧
      (witResC6.success = false → witResC6.newPID = 0)) :=
  ⟨by decide,
    injectAgents_success_invariant witWC6 (plainJavaProc 9) [witAgentC6]
      witOptsC6 witResC6 (by decide) (by decide)
      (fun i p hp => by
        have h42 : some (42 : Int) = some p := hp
        injection h42 with h42
        omega)⟩

/-- C6 (counterexample): with max_retries configured to 0 the start loop
    never runs, the nil error left by the info capture survives, and Restart
    reports success with pid 0 — Inject then returns success = true with a
    zero new-process id, violating the claimed invariant. -/
theorem injectAgents_zero_retries_cex :
    (injectAgents cexWC6 (plainJavaProc 9) [witAgentC6] cexOptsC6).map
        (fun r => (r.success, r.newPID)) = some (true, 0) := by
  decide

/-! ## C9 — conjunctive filter matching -/

/-- The tri-state agent check rejects exactly on a set-but-disagreeing
    state. -/
theorem agentStateMismatch_eq_false (f : ProcessFilter) (proc : JavaProcess) :
    agentStateMismatch f proc = false ↔
      ∀ b, f.agentState = some b → (!proc.agents.isEmpty) = b := by
  unfold agentStateMismatch
  cases hA : f.agentState with
  | none => simp
  | some b => cases b <;> cases hx : proc.agents.isEmpty <;> simp [hx]

/-- C9 (counterexample): the claim says a filter whose name list is
    non-empty rejects every process whose name is not in the list; the
    source never reads the Names field, so a process named "backend" passes
    a filter naming only "frontend". -/
theorem matchFilter_ignores_names :
    matchFilter (fun _ => none) cexProcC9 cexFilterC9 = true ∧
      cexFilterC9.names ≠ [] ∧ cexProcC9.name ∉ cexFilterC9.names := by
  decide

/-- C9 (amended): Matches answers true exactly when the process satisfies
    every non-empty predicate among id membership, user membership,
    agent-presence equality when specified, and at least one regex hit
    against name/jar/main-class — the name list (and minimum uptime) impose
    no constraint, and an absent predicate imposes none either. -/
theorem matchFilter_iff (re : String → Option (String → Bool))
    (proc : JavaProcess) (f : ProcessFilter) :
    matchFilter re proc f = true ↔
      ((f.pids = [] ∨ proc.pid ∈ f.pids) ∧
       (f.users = [] ∨ proc.user ∈ f.users) ∧
       (∀ b, f.agentState = some b → (!proc.agents.isEmpty) = b) ∧
       (f.regexPats = [] ∨ ∃ p ∈ f.regexPats, regexHit re proc p = true)) := by
  unfold matchFilter
  split_ifs with h1 h2 h3 h4
  · simp only [false_iff]
    intro hc
    rcases h1 with ⟨hne, hnc⟩
    rcases hc.1 with he | hm
    · exact hne he
    · exact hnc (List.elem_iff.mpr hm)
  · simp only [false_iff]
    intro hc
    rcases h2 with ⟨hne, hnc⟩
    rcases hc.2.1 with he | hm
    · exact hne he
    · exact hnc (List.elem_iff.mpr hm)
  · simp only [false_iff]
    intro hc
    have := (agentStateMismatch_eq_false f proc).mpr hc.2.2.1
    rw [h3] at this
    cases this
  · simp only [false_iff]
    intro hc
    rcases h4 with ⟨hne, hnc⟩
    rcases hc.2.2.2 with he | ⟨p, hp, hhit⟩
    · exact hne he
    · exact hnc (List.any_eq_true.mpr ⟨p, hp, hhit⟩)
  · simp only [true_iff]
    push_neg at h1 h2 h4
    refine ⟨?_, ?_, ?_, ?_⟩
    · by_cases he : f.pids = []
      · exact Or.inl he
      · exact Or.inr (List.elem_iff.mp (by simpa using h1 he))
    · by_cases he : f.users = []
      · exact Or.inl he
      · exact Or.inr (List.elem_iff.mp (by simpa using h2 he))
    · exact (agentStateMismatch_eq_false f proc).mp (by simpa using h3)
    · by_cases he : f.regexPats = []
      · exact Or.inl he
      · exact Or.inr (List.any_eq_true.mp (by simpa using h4 he))

/-! ## C10 — single-target injection when the agent is already attached -/

/-- C10: for a target already carrying at least one detected agent, Inject
    returns immediately — success = false, nil error, zero new pid, the
    already-attached message, and the old command line and agent list intact
    — and the result does not depend on the restart world, the agent path or
    the restart policy: nothing is stopped, started or restarted. -/
theorem injectSecPoint_already_attached (w w' : InjectWorld)
    (proc : JavaProcess) (secPointPath secPointPath' : String)
    (opts opts' : RestartOpts) (h : proc.agents ≠ []) :
    injectSecPoint w proc secPointPath opts =
      some { pid := proc.pid, success := false, oldCmdLine := proc.cmdLine,
             newCmdLine := [], newPID := 0, oldAgents := proc.agents,
             newAgents := [], errMsg := none,
             message := "SecPoint agent already attached" } ∧
    injectSecPoint w proc secPointPath opts =
      injectSecPoint w' proc secPointPath' opts' := by
  have hs : hasSecPointAgent proc = true := by
    unfold hasSecPointAgent
    cases hag : proc.agents with
    | nil => exact absurd hag h
    | cons a t => simp [hag]
  constructor
  · simp [injectSecPoint, hs, baseResult]
  · simp [injectSecPoint, hs]

/-- C10 witness: a process with one recorded SecPoint agent, two different
    worlds and policies. -/
theorem injectSecPoint_already_attached_witness :
    injectSecPoint cexWC10a cexProcC10 "/opt/secpoint/SecPoint.jar"
        cexOptsC10a =
      some { pid := cexProcC10.pid, success := false,
             oldCmdLine := cexProcC10.cmdLine, newCmdLine := [], newPID := 0,
             oldAgents := cexProcC10.agents, newAgents := [], errMsg := none,
             message := "SecPoint agent already attached" } ∧
    injectSecPoint cexWC10a cexProcC10 "/opt/secpoint/SecPoint.jar"
        cexOptsC10a =
      injectSecPoint cexWC10b cexProcC10 "/tmp/SecPoint.jar" cexOptsC10b :=
  injectSecPoint_already_attached cexWC10a cexWC10b cexProcC10
    "/opt/secpoint/SecPoint.jar" "/tmp/SecPoint.jar" cexOptsC10a cexOptsC10b
    (by decide)

end AutoInject
